import Mathlib

/-!
# Coinalyze acquisition pipeline — verification of the spec's claims

Shallow embedding of the core of the repository:

* `unwrap_history` (src/export_helpers.py:50-58, src/historical_export.py:100-108,
  src/coinalyze_loop.py:35-46 — the three copies are textually identical);
* `_get_failover` (src/coinalyze_api.py:48-61) and its caller
  `get_ohlcv_history` (src/coinalyze_api.py:109-116);
* `jitter_sleep_ms` (src/historical_export.py:52-55, src/export_helpers.py:46-48);
* the per-day, per-endpoint export loop `export_day`
  (src/historical_export.py:111-155) and the surrounding day loop of `main`.

Python values appearing in responses are modelled by an inductive `Json` type;
Python dicts by association lists; `time.sleep` is modelled as an event (no real
time); the mutable completion-state dict by explicit state passing.  The
execution is modelled with the process-wide `shutdown` flag never set (no
SIGINT/SIGTERM arrives), which is the situation all the claims speak about.
-/

/-- A Python/JSON value as it appears in an API response.  Numbers are modelled
as integers (the record contents are opaque to the code under study). -/
inductive Json where
  | null
  | bool (b : Bool)
  | num (n : Int)
  | str (s : String)
  | arr (elems : List Json)
  | obj (fields : List (String × Json))
deriving Repr

/-- First-match lookup in an association list, modelling Python `d[k]` /
`d.get(k)` presence for a dict (Python dicts have unique keys, so first-match
agrees with dict semantics). -/
def dictLookup : List (String × Json) → String → Option Json
  | [], _ => none
  | (k, v) :: rest, key => if k = key then some v else dictLookup rest key

/-- Python `d.get(k)`: the value when the key is present, `None` otherwise. -/
def dictGet (kvs : List (String × Json)) (key : String) : Json :=
  (dictLookup kvs key).getD .null

/-- Python truthiness (`bool(x)`) of a JSON value. -/
def Json.falsy : Json → Bool
  | .null => true
  | .bool b => !b
  | .num n => n == 0
  | .str s => s == ""
  | .arr xs => xs.isEmpty
  | .obj kvs => kvs.isEmpty

/-- Python `x or []`: `x` when truthy, the empty list otherwise. -/
def pyOrEmptyList (x : Json) : Json :=
  if x.falsy then .arr [] else x

/-- src/export_helpers.py:50-58 (= src/historical_export.py:100-108
= src/coinalyze_loop.py:35-46):

```python
def unwrap_history(resp):
    # Accepts: [ {symbol, history:[...]} ]  OR  {history:[...]}  OR  plain list
    if isinstance(resp, list):
        if resp and isinstance(resp[0], dict) and "history" in resp[0]:
            return resp[0].get("history") or []
        return resp
    if isinstance(resp, dict) and "history" in resp:
        return resp.get("history") or []
    return []
```
-/
def unwrap_history : Json → Json
  | .arr elems =>
    match elems with
    | .obj kvs :: _ =>
      if (dictLookup kvs "history").isSome then
        pyOrEmptyList (dictGet kvs "history")
      else .arr elems
    | _ => .arr elems
  | .obj kvs =>
    if (dictLookup kvs "history").isSome then
      pyOrEmptyList (dictGet kvs "history")
    else .arr []
  | _ => .arr []

/-- The "wrapped" response shape: a non-empty list whose first element is a
dict containing a `"history"` key. -/
def wrappedShape : List Json → Bool
  | .obj kvs :: _ => (dictLookup kvs "history").isSome
  | _ => false

theorem pyOrEmptyList_arr (h : List Json) : pyOrEmptyList (.arr h) = .arr h := by
  cases h with
  | nil => rfl
  | cons a t => rfl

theorem unwrap_history_obj_of_lookup {kvs : List (String × Json)} {h : List Json}
    (hl : dictLookup kvs "history" = some (.arr h)) :
    unwrap_history (.obj kvs) = .arr h := by
  simp [unwrap_history, dictGet, hl, pyOrEmptyList_arr]

theorem unwrap_history_wrapped_of_lookup {kvs : List (String × Json)}
    {rest : List Json} {h : List Json}
    (hl : dictLookup kvs "history" = some (.arr h)) :
    unwrap_history (.arr (.obj kvs :: rest)) = .arr h := by
  simp [unwrap_history, dictGet, hl, pyOrEmptyList_arr]

theorem unwrap_history_bare {elems : List Json} (hw : wrappedShape elems = false) :
    unwrap_history (.arr elems) = .arr elems := by
  cases elems with
  | nil => rfl
  | cons a t =>
    cases a with
    | obj kvs =>
      simp only [wrappedShape] at hw
      simp [unwrap_history, hw]
    | null => rfl
    | bool b => rfl
    | num n => rfl
    | str s => rfl
    | arr xs => rfl

/-- C1: `unwrap_history` maps a bare (non-wrapped) list to itself, a dict with
a `"history"` key to that key's list, and a non-empty list whose first element
is a dict with a `"history"` key to that element's history; in particular
`[1,2,3]`, `{"history":[1,2,3]}` and `[{"symbol":"X","history":[1,2,3]}]` all
unwrap to `[1,2,3]`, and `{}` and `[]` both unwrap to `[]`. -/
theorem unwrap_history_spec :
    (∀ elems : List Json, wrappedShape elems = false →
        unwrap_history (.arr elems) = .arr elems) ∧
    (∀ (kvs : List (String × Json)) (h : List Json),
        dictLookup kvs "history" = some (.arr h) →
        unwrap_history (.obj kvs) = .arr h) ∧
    (∀ (kvs : List (String × Json)) (rest h : List Json),
        dictLookup kvs "history" = some (.arr h) →
        unwrap_history (.arr (.obj kvs :: rest)) = .arr h) ∧
    unwrap_history (.arr [.num 1, .num 2, .num 3]) = .arr [.num 1, .num 2, .num 3] ∧
    unwrap_history (.obj [("history", .arr [.num 1, .num 2, .num 3])]) =
      .arr [.num 1, .num 2, .num 3] ∧
    unwrap_history (.arr [.obj [("symbol", .str "X"),
        ("history", .arr [.num 1, .num 2, .num 3])]]) = .arr [.num 1, .num 2, .num 3] ∧
    unwrap_history (.obj []) = .arr [] ∧
    unwrap_history (.arr []) = .arr [] := by
  refine ⟨fun elems hw => unwrap_history_bare hw,
    fun kvs h hl => unwrap_history_obj_of_lookup hl,
    fun kvs rest h hl => unwrap_history_wrapped_of_lookup hl,
    rfl, rfl, rfl, rfl, rfl⟩

/-- Witness for C1: the three universally quantified clauses instantiated at
concrete inputs, with every hypothesis discharged by evaluation. -/
theorem unwrap_history_spec_witness :
    unwrap_history (.arr [.num 4, .num 5]) = .arr [.num 4, .num 5] ∧
    unwrap_history (.obj [("history", .arr [.num 7])]) = .arr [.num 7] ∧
    unwrap_history (.arr [.obj [("history", .arr [.num 7])], .num 9]) = .arr [.num 7] :=
  ⟨unwrap_history_spec.1 [.num 4, .num 5] rfl,
   unwrap_history_spec.2.1 [("history", .arr [.num 7])] [.num 7] rfl,
   unwrap_history_spec.2.2.1 [("history", .arr [.num 7])] [.num 9] [.num 7] rfl⟩

/-- C10: on a wrapped list with two or more elements, `unwrap_history` returns
only the first element's history, discarding all subsequent elements; on an
input that is neither a list nor a dict, or a dict without a `"history"` key,
it returns the empty list (it is a total function, so it never raises). -/
theorem unwrap_history_first_only :
    (∀ (kvs : List (String × Json)) (rest h : List Json),
        dictLookup kvs "history" = some (.arr h) → rest ≠ [] →
        unwrap_history (.arr (.obj kvs :: rest)) = .arr h) ∧
    (∀ j : Json, (∀ xs, j ≠ .arr xs) → (∀ kvs, j ≠ .obj kvs) →
        unwrap_history j = .arr []) ∧
    (∀ kvs : List (String × Json), dictLookup kvs "history" = none →
        unwrap_history (.obj kvs) = .arr []) := by
  refine ⟨fun kvs rest h hl _ => unwrap_history_wrapped_of_lookup hl, ?_, ?_⟩
  · intro j harr hobj
    cases j with
    | arr xs => exact absurd rfl (harr xs)
    | obj kvs => exact absurd rfl (hobj kvs)
    | null => rfl
    | bool b => rfl
    | num n => rfl
    | str s => rfl
  · intro kvs hl
    simp [unwrap_history, hl]

/-- Witness for C10: two wrapped elements, only the first one's history is
returned; a bare number and a history-less dict both unwrap to `[]`. -/
theorem unwrap_history_first_only_witness :
    unwrap_history (.arr [.obj [("history", .arr [.num 1])],
        .obj [("history", .arr [.num 2])]]) = .arr [.num 1] ∧
    unwrap_history (.num 5) = .arr [] ∧
    unwrap_history (.obj [("symbol", .str "X")]) = .arr [] :=
  ⟨unwrap_history_first_only.1 [("history", .arr [.num 1])]
      [.obj [("history", .arr [.num 2])]] [.num 1] rfl (by simp),
   unwrap_history_first_only.2.1 (.num 5) (fun xs h => by cases h)
      (fun kvs h => by cases h),
   unwrap_history_first_only.2.2 [("symbol", .str "X")] rfl⟩

/-! ## The failover client (src/coinalyze_api.py) -/

/-- Outcome of `_get_failover`: a JSON body, a raised `requests.HTTPError`
with the response's status code, or the `RuntimeError("No paths provided to
_get_failover")` raised when the path list is empty.  Non-HTTP exceptions
(timeouts, connection errors) propagate through `_get_failover` unhandled and
are outside this model, as they are outside the claim. -/
inductive FailoverResult where
  | ok (v : Json)
  | httpErr (status : Nat)
  | noPathsError
deriving Repr

/-- src/coinalyze_api.py:48-61, with the inner `_get` abstracted as an oracle
from the path to either a JSON body or a raised HTTP status:

```python
def _get_failover(paths, params=None, timeout=None):
    last_exc = None
    for p in paths:
        try:
            return _get(p, params=params, timeout=timeout)
        except requests.HTTPError as e:
            # try next only for 404; raise immediately for 401 (auth) ...
            if e.response is not None and e.response.status_code == 404:
                last_exc = e
                continue
            raise
    if last_exc:
        raise last_exc
    raise RuntimeError("No paths provided to _get_failover")
```

The second component of the result is the exact sequence of paths on which
`_get` was attempted, in order. -/
def failoverAux (oracle : String → Except Nat Json) :
    List String → Option Nat → FailoverResult × List String
  | [], last =>
    (match last with
     | some st => .httpErr st
     | none => .noPathsError, [])
  | p :: rest, _last =>
    match oracle p with
    | .ok v => (.ok v, [p])
    | .error st =>
      if st = 404 then
        let r := failoverAux oracle rest (some st)
        (r.1, p :: r.2)
      else (.httpErr st, [p])

/-- `_get_failover` starts with `last_exc = None`. -/
def get_failover (oracle : String → Except Nat Json) (paths : List String) :
    FailoverResult × List String :=
  failoverAux oracle paths none

/-- The two paths of `get_ohlcv_history` (src/coinalyze_api.py:116). -/
def ohlcvPaths : List String := ["/get-ohlcv-history", "/ohlcv-history"]

/-- src/coinalyze_api.py:109-116: `get_ohlcv_history` delegates to
`_get_failover` on its primary and legacy paths. -/
def get_ohlcv_history (oracle : String → Except Nat Json) :
    FailoverResult × List String :=
  get_failover oracle ohlcvPaths

theorem failoverAux_cons_404 (oracle : String → Except Nat Json) (p : String)
    (rest : List String) (last : Option Nat) (hp : oracle p = .error 404) :
    failoverAux oracle (p :: rest) last =
      ((failoverAux oracle rest (some 404)).1,
        p :: (failoverAux oracle rest (some 404)).2) := by
  simp [failoverAux, hp]

theorem failoverAux_all_404 (oracle : String → Except Nat Json) :
    ∀ (paths : List String), paths ≠ [] →
      (∀ p ∈ paths, oracle p = .error 404) → ∀ last,
      failoverAux oracle paths last = (.httpErr 404, paths) := by
  intro paths
  induction paths with
  | nil => intro h; exact absurd rfl h
  | cons p rest ih =>
    intro _ hall last
    have hp : oracle p = .error 404 := hall p (List.mem_cons_self p rest)
    cases rest with
    | nil => simp [failoverAux, hp]
    | cons q rest' =>
      rw [failoverAux_cons_404 oracle p (q :: rest') last hp,
        ih (by simp) (fun x hx => hall x (List.mem_cons_of_mem p hx)) (some 404)]

/-- C6 counterexample: with no paths configured, `_get_failover` does not
surface an HTTP 404 to the caller; it raises
`RuntimeError("No paths provided to _get_failover")`. -/
theorem get_failover_no_paths_counterexample :
    (get_failover (fun _ => .error 404) []).1 = .noPathsError ∧
    (get_failover (fun _ => .error 404) []).1 ≠ .httpErr 404 :=
  ⟨rfl, fun h => FailoverResult.noConfusion h⟩

/-- C6 (amended): a 404 on a path causes exactly one attempt of the next
fallback path before success or terminal failure; a 404 on the last path
surfaces as the 404 to the caller; a non-404 HTTP error aborts the failover
immediately, trying no further paths; with no paths configured a
`RuntimeError` is raised, not a 404.  The `get_ohlcv_history` category is the
one configured with a fallback list (primary plus one legacy path). -/
theorem get_failover_spec :
    (∀ (oracle : String → Except Nat Json) (p1 p2 : String) (rest : List String)
        (v : Json), oracle p1 = .error 404 → oracle p2 = .ok v →
        get_failover oracle (p1 :: p2 :: rest) = (.ok v, [p1, p2])) ∧
    (∀ (oracle : String → Except Nat Json) (p1 p2 : String) (rest : List String)
        (st : Nat), oracle p1 = .error 404 → oracle p2 = .error st → st ≠ 404 →
        get_failover oracle (p1 :: p2 :: rest) = (.httpErr st, [p1, p2])) ∧
    (∀ (oracle : String → Except Nat Json) (paths : List String), paths ≠ [] →
        (∀ p ∈ paths, oracle p = .error 404) →
        get_failover oracle paths = (.httpErr 404, paths)) ∧
    (∀ (oracle : String → Except Nat Json) (p : String) (rest : List String)
        (st : Nat), oracle p = .error st → st ≠ 404 →
        get_failover oracle (p :: rest) = (.httpErr st, [p])) ∧
    (∀ oracle : String → Except Nat Json,
        get_failover oracle [] = (.noPathsError, [])) ∧
    (∀ (oracle : String → Except Nat Json) (v : Json),
        oracle "/get-ohlcv-history" = .error 404 → oracle "/ohlcv-history" = .ok v →
        get_ohlcv_history oracle = (.ok v, ohlcvPaths)) := by
  have habort : ∀ (oracle : String → Except Nat Json) (p : String)
      (rest : List String) (st : Nat), oracle p = .error st → st ≠ 404 →
      get_failover oracle (p :: rest) = (.httpErr st, [p]) := by
    intro oracle p rest st hp hst
    simp [get_failover, failoverAux, hp, hst]
  have hfall : ∀ (oracle : String → Except Nat Json) (p1 p2 : String)
      (rest : List String) (v : Json), oracle p1 = .error 404 → oracle p2 = .ok v →
      get_failover oracle (p1 :: p2 :: rest) = (.ok v, [p1, p2]) := by
    intro oracle p1 p2 rest v h1 h2
    simp [get_failover, failoverAux, h1, h2]
  refine ⟨hfall, ?_, ?_, habort, fun _ => rfl, ?_⟩
  · intro oracle p1 p2 rest st h1 h2 hst
    simp [get_failover, failoverAux, h1, h2, hst]
  · intro oracle paths hne hall
    exact failoverAux_all_404 oracle paths hne hall none
  · intro oracle v h1 h2
    exact hfall oracle _ _ [] v h1 h2

/-- Witness for the amended C6: a concrete oracle that 404s on the primary
path and succeeds on the fallback, plus concrete instances of the abort,
all-404 and no-paths clauses. -/
theorem get_failover_spec_witness :
    get_ohlcv_history
      (fun p => if p = "/ohlcv-history" then .ok (.num 1) else .error 404) =
      (.ok (.num 1), ohlcvPaths) ∧
    get_failover (fun _ => .error 500) ["/a", "/b"] = (.httpErr 500, ["/a"]) ∧
    get_failover (fun _ => .error 404) ["/a", "/b"] = (.httpErr 404, ["/a", "/b"]) ∧
    get_failover (fun _ => .error 404) [] = (.noPathsError, []) :=
  ⟨get_failover_spec.2.2.2.2.2 _ (.num 1) rfl rfl,
   get_failover_spec.2.2.2.1 _ "/a" ["/b"] 500 rfl (by decide),
   get_failover_spec.2.2.1 _ ["/a", "/b"] (by simp) (by intro p hp; rfl),
   get_failover_spec.2.2.2.2.1 _⟩

/-! ## Pacing jitter (src/historical_export.py:52-55, src/export_helpers.py:46-48) -/

/-- The sleep duration computed by `jitter_sleep_ms`:

```python
def jitter_sleep_ms(ms: int):
    delay = (ms/1000.0) + random.uniform(0, (ms/1000.0)*0.3)
    if delay > 0:
        time.sleep(delay)
```

`random.uniform(0, x)` with `x ≥ 0` is modelled as `u * x` for a draw
`u ∈ [0, 1]`; arithmetic is exact (rationals) rather than floating point. -/
def jitterDelaySec (ms : ℚ) (u : ℚ) : ℚ :=
  ms / 1000 + u * (ms / 1000 * (3 / 10))

/-- The default per-endpoint pacing table `EP_DELAY_MS`
(src/historical_export.py:25-32) with `GLOBAL_DELAY_MS` as the fallback for
unknown keys, mirroring `EP_DELAY_MS.get(key, GLOBAL_DELAY_MS)`. -/
def EP_DELAY_MS (key : String) : Nat :=
  if key = "ohlcv" then 600
  else if key = "oi" then 700
  else if key = "fr" then 3000
  else if key = "pfr" then 7000
  else if key = "ls" then 3000
  else if key = "liq" then 1200
  else 400

/-- C7: for a pacing interval of `ms ≥ 0` milliseconds and any jitter draw,
the computed sleep duration lies in the closed range
`[0.7·ms/1000, 1.3·ms/1000]` seconds.  (The code only ever adds jitter, so the
duration in fact lies in the upper half `[ms/1000, 1.3·ms/1000]` of that
range; the claimed interval certainly contains it.) -/
theorem jitter_sleep_ms_bounds (ms u : ℚ) (hms : 0 ≤ ms) (h0 : 0 ≤ u)
    (h1 : u ≤ 1) :
    (7 / 10) * (ms / 1000) ≤ jitterDelaySec ms u ∧
      jitterDelaySec ms u ≤ (13 / 10) * (ms / 1000) := by
  have hx : (0 : ℚ) ≤ ms / 1000 * (3 / 10) := by positivity
  constructor
  · simp only [jitterDelaySec]
    nlinarith [mul_nonneg h0 hx]
  · simp only [jitterDelaySec]
    nlinarith [mul_le_of_le_one_left hx h1]

/-- Witness for C7: the default `ohlcv` pacing interval (600 ms) and the
draw `u = 1/2` give a sleep of 0.69 s, inside `[0.42, 0.78]`. -/
theorem jitter_sleep_ms_bounds_witness :
    (7 / 10) * ((EP_DELAY_MS "ohlcv" : ℚ) / 1000) ≤ jitterDelaySec (EP_DELAY_MS "ohlcv") (1 / 2) ∧
      jitterDelaySec (EP_DELAY_MS "ohlcv") (1 / 2) ≤ (13 / 10) * ((EP_DELAY_MS "ohlcv" : ℚ) / 1000) :=
  jitter_sleep_ms_bounds (EP_DELAY_MS "ohlcv") (1 / 2) (by norm_num [EP_DELAY_MS])
    (by norm_num) (by norm_num)

/-! ## UTC day windows (src/historical_export.py:57-60 and 116-118) -/

/-- A timezone-aware UTC `datetime`, split into whole days since the Unix
epoch and seconds within the day.  `datetime.timestamp()` of such a value is
`86400 * day + sec` (Unix time has no leap seconds: every calendar day spans
exactly 86400 timestamps). -/
structure UTCDateTime where
  day : Nat
  sec : Nat
deriving Repr

/-- `unix_utc` (src/historical_export.py:57-60): `int(dt.timestamp())` of a
UTC datetime. -/
def unix_utc (dt : UTCDateTime) : Int :=
  86400 * (dt.day : Int) + dt.sec

/-- `dt.replace(hour=0, minute=0, second=0)` on a microsecond-free datetime:
truncate to midnight. -/
def replaceMidnight (dt : UTCDateTime) : UTCDateTime :=
  ⟨dt.day, 0⟩

/-- `dt + timedelta(days=1)`. -/
def addDays (dt : UTCDateTime) (n : Nat) : UTCDateTime :=
  ⟨dt.day + n, dt.sec⟩

/-- `t0` of the fetch window (src/historical_export.py:117):
`unix_utc(day_utc.replace(hour=0, minute=0, second=0))`. -/
def window_t0 (day_utc : UTCDateTime) : Int :=
  unix_utc (replaceMidnight day_utc)

/-- `t1` of the fetch window (src/historical_export.py:118):
`unix_utc((day_utc + timedelta(days=1)).replace(hour=0, minute=0, second=0)) - 1`. -/
def window_t1 (day_utc : UTCDateTime) : Int :=
  unix_utc (replaceMidnight (addDays day_utc 1)) - 1

/-- C8: for every UTC calendar day, the fetch window starts at the timestamp
of the day's midnight and ends at the next midnight's timestamp minus one
second, so `t1 = t0 + 86399`. -/
theorem window_t1_eq_t0_add (day_utc : UTCDateTime) :
    window_t1 day_utc = window_t0 day_utc + 86399 := by
  simp [window_t1, window_t0, unix_utc, replaceMidnight, addDays]
  ring

/-! ## 429 handling (src/coinalyze_api.py:23-31, src/historical_export.py:145-151) -/

/-- The `urllib3.util.retry.Retry` configuration mounted on the client session
(src/coinalyze_api.py:24-31).  These literal parameters are the entirety of
the repository's HTTP-level 429 handling: the repository contains no
`Retry-After` parsing, no 60-second default wait and no 30-second floor
anywhere; status-429 retries and their sleeps happen inside the third-party
urllib3 adapter. -/
structure RetryConfig where
  total : Nat
  backoffFactor : ℚ
  statusForcelist : List Nat
  raiseOnStatus : Bool
deriving Repr, DecidableEq

/-- `Retry(total=5, backoff_factor=0.8, status_forcelist=[429, 500, 502, 503,
504], allowed_methods=["GET"], raise_on_status=False)`. -/
def sessionRetries : RetryConfig :=
  { total := 5
    backoffFactor := 4 / 5
    statusForcelist := [429, 500, 502, 503, 504]
    raiseOnStatus := false }

/-- The wait the scheduler itself performs before retrying a unit whose fetch
raised (a 429 that survived the adapter's internal retries surfaces as
`requests.HTTPError` from `raise_for_status` and is caught here),
src/historical_export.py:150-151:
`jitter_sleep_ms(max(EP_DELAY_MS.get(key, GLOBAL_DELAY_MS), 2000))`. -/
def retryWaitSec (epDelayMs : ℚ) (u : ℚ) : ℚ :=
  jitterDelaySec (max epDelayMs 2000) u

/-- C9 counterexample: a failed fetch of the `ohlcv` category (default pacing
600 ms) is retried after a wait of at most 2.6 s even at the maximal jitter
draw — there is no 30-second floor on the wait before a retry. -/
theorem retryWait_no_thirty_second_floor :
    retryWaitSec (EP_DELAY_MS "ohlcv") 1 = 13 / 5 ∧
      ¬ (30 ≤ retryWaitSec (EP_DELAY_MS "ohlcv") 1) := by
  norm_num [retryWaitSec, jitterDelaySec, EP_DELAY_MS]

/-- C9 (amended): 429 responses are retried inside the configured third-party
adapter (`Retry` with `total = 5`, `backoff_factor = 0.8` and 429 in the
forcelist); the repository applies no 60-second default and no 30-second
floor — once a failure surfaces to the scheduler, the wait before its own
retry is `max(category delay, 2000 ms)` jittered by +0–30 %, hence within
`[max(d,2000)/1000, 1.3·max(d,2000)/1000]` seconds. -/
theorem retryWait_spec :
    sessionRetries.total = 5 ∧
    sessionRetries.backoffFactor = 4 / 5 ∧
    429 ∈ sessionRetries.statusForcelist ∧
    (∀ ms u : ℚ, 0 ≤ ms → 0 ≤ u → u ≤ 1 →
      max ms 2000 / 1000 ≤ retryWaitSec ms u ∧
        retryWaitSec ms u ≤ (13 / 10) * (max ms 2000 / 1000)) := by
  refine ⟨rfl, rfl, by decide, ?_⟩
  intro ms u hms h0 h1
  have hmax : (0 : ℚ) ≤ max ms 2000 := le_trans hms (le_max_left ms 2000)
  have hx : (0 : ℚ) ≤ max ms 2000 / 1000 * (3 / 10) := by positivity
  constructor
  · have := mul_nonneg h0 hx
    simp only [retryWaitSec, jitterDelaySec]
    nlinarith
  · have := mul_le_of_le_one_left hx h1
    simp only [retryWaitSec, jitterDelaySec]
    nlinarith

/-- Witness for the amended C9: the `fr` category (default pacing 3000 ms)
with jitter draw `u = 1` waits 3.9 s, inside `[3, 3.9]`. -/
theorem retryWait_spec_witness :
    max (3000 : ℚ) 2000 / 1000 ≤ retryWaitSec 3000 1 ∧
      retryWaitSec 3000 1 ≤ (13 / 10) * (max (3000 : ℚ) 2000 / 1000) :=
  retryWait_spec.2.2.2 3000 1 (by norm_num) (by norm_num) (by norm_num)

/-! ## The export scheduler (src/historical_export.py:111-184)

`export_day` is modelled as a pure function threading the completion-state
dict and the set of existing artifact files, and producing a trace of the
observable actions it performs: pacing sleeps, fetch attempts, completed
`write_jsonl` calls, completion-state marks and `save_state` flushes.

* The fetch `fn(symbol, interval, t0, t1)` and the durable `write_jsonl` are
  abstracted as an oracle giving, per attempt number (1-based, as `tries` in
  the source), one of: both succeed, the fetch raises, or the fetch succeeds
  and the write raises.  A write that raises is not a completed write and
  produces no `write` event (and no artifact).
* The `shutdown` flag is never set, `random.random() < 0.005` skip logging and
  `print` calls have no modelled effect, and `time.sleep` is an event.
-/

/-- The completion-state dict `state` (`{done_key: "ok" | "error:..."}`),
as an association list with unique keys. -/
abbrev StateMap := List (String × String)

/-- Python `state.get(done_key)`. -/
def lookupState : StateMap → String → Option String
  | [], _ => none
  | (k, v) :: rest, key => if k = key then some v else lookupState rest key

/-- Python `state[done_key] = v`: overwrite the existing binding or append. -/
def setState : StateMap → String → String → StateMap
  | [], key, v => [(key, v)]
  | (k, w) :: rest, key, v =>
    if k = key then (key, v) :: rest else (k, w) :: setState rest key v

/-- Outcome of one body of the retry loop for a unit: the fetch and the write
both complete, or the fetch raises, or the fetch returns and `write_jsonl`
raises.  The exception message is what `repr(e)` yields. -/
inductive Attempt where
  | success (resp : Json)
  | fetchFail (msg : String)
  | writeFail (resp : Json) (msg : String)

/-- Observable actions of a run, in program order. -/
inductive Ev where
  | sleep (ms : Nat)
  | fetch (doneKey : String) (tryIdx : Nat)
  | write (path : String) (rows : Json)
  | markOk (doneKey : String) (path : String)
  | markErr (doneKey : String) (msg : String)
  | saveState
deriving Repr

/-- `f"{day_str}:{key}"` (src/historical_export.py:123). -/
def doneKeyOf (dayStr key : String) : String := dayStr ++ ":" ++ key

/-- `day_dir / f"{key}.jsonl"` (src/historical_export.py:122). -/
def outPathOf (dayDir key : String) : String := dayDir ++ "/" ++ key ++ ".jsonl"

/-- `OUT_ROOT / symbol / interval / day_str` (src/historical_export.py:113). -/
def dayDirOf (outRoot symbol interval dayStr : String) : String :=
  outRoot ++ "/" ++ symbol ++ "/" ++ interval ++ "/" ++ dayStr

/-- The keys of `ENDPOINTS` in declared order (src/historical_export.py:34-41;
Python dicts iterate in insertion order). -/
def ENDPOINT_KEYS : List String := ["ohlcv", "oi", "fr", "pfr", "ls", "liq"]

/-- `MAX_RETRIES = int(os.getenv("MAX_RETRIES", "8"))`: the default retry
budget (src/historical_export.py:21). -/
def MAX_RETRIES : Nat := 8

/-- The retry loop of `export_day` (src/historical_export.py:133-151):

```python
tries = 0
while not shutdown:
    tries += 1
    try:
        ...
        resp = fn(symbol, interval, t0, t1)
        rows = unwrap_history(resp)
        write_jsonl(out_path, rows)
        state[done_key] = "ok"
        break
    except Exception as e:
        ...
        if tries >= MAX_RETRIES:
            state[done_key] = f"error:{repr(e)}"
            break
        # longer wait after errors
        jitter_sleep_ms(max(EP_DELAY_MS.get(key, GLOBAL_DELAY_MS), 2000))
```

`tries` is the 1-based attempt number; `fuel` counts the further attempts the
budget still allows, so `fuel = 0` corresponds to `tries >= MAX_RETRIES`.
The caller passes `tries = 1` and `fuel = MAX_RETRIES - 1` (for
`MAX_RETRIES = 0`, Nat subtraction gives `fuel = 0`, matching the source
where `tries = 1 >= 0` already exhausts the budget). -/
def runAttempts (oracle : Nat → Attempt) (dk path : String) (errDelayMs : Nat) :
    Nat → Nat → StateMap → StateMap × List Ev
  | tries, fuel, s =>
    match oracle tries with
    | .success resp =>
      (setState s dk "ok",
        [.fetch dk tries, .write path (unwrap_history resp), .markOk dk path])
    | .fetchFail msg =>
      match fuel with
      | 0 => (setState s dk ("error:" ++ msg), [.fetch dk tries, .markErr dk msg])
      | fuel' + 1 =>
        let r := runAttempts oracle dk path errDelayMs (tries + 1) fuel' s
        (r.1, .fetch dk tries :: .sleep errDelayMs :: r.2)
    | .writeFail _ msg =>
      match fuel with
      | 0 => (setState s dk ("error:" ++ msg), [.fetch dk tries, .markErr dk msg])
      | fuel' + 1 =>
        let r := runAttempts oracle dk path errDelayMs (tries + 1) fuel' s
        (r.1, .fetch dk tries :: .sleep errDelayMs :: r.2)

/-- The artifact paths whose `write_jsonl` completed in a trace. -/
def writtenPaths (evs : List Ev) : List String :=
  evs.filterMap fun e =>
    match e with
    | .write p _ => some p
    | _ => none

/-- The `(done_key, tries)` of every fetch attempt in a trace. -/
def fetchEvents (evs : List Ev) : List (String × Nat) :=
  evs.filterMap fun e =>
    match e with
    | .fetch dk t => some (dk, t)
    | _ => none

/-- Final completion state, artifact files on disk and trace of a run. -/
structure RunResult where
  state : StateMap
  fs : List String
  events : List Ev
deriving Repr

/-- One iteration of the `for key, fn in ENDPOINTS.items()` loop
(src/historical_export.py:120-155): skip when the artifact exists or the
state entry is `"ok"`; otherwise pace, run the retry loop, then the global
gap sleep and `save_state`. -/
def processUnit (oracle : Nat → Attempt) (dayStr dayDir key : String)
    (epDelayMs gDelayMs maxRetries : Nat) (s : StateMap) (fs : List String) :
    RunResult :=
  let path := outPathOf dayDir key
  let dk := doneKeyOf dayStr key
  if fs.contains path || lookupState s dk == some "ok" then
    ⟨s, fs, []⟩
  else
    let r := runAttempts oracle dk path (max epDelayMs 2000) 1 (maxRetries - 1) s
    ⟨r.1, fs ++ writtenPaths r.2,
      .sleep epDelayMs :: r.2 ++ [.sleep gDelayMs, .saveState]⟩

/-- The endpoint loop of `export_day` over an arbitrary key list, threading
state and files. -/
def exportKeys (oracle : String → Nat → Attempt) (dayStr dayDir : String)
    (epDelay : String → Nat) (gDelayMs maxRetries : Nat) :
    List String → StateMap → List String → RunResult
  | [], s, fs => ⟨s, fs, []⟩
  | key :: rest, s, fs =>
    let r := processUnit (oracle key) dayStr dayDir key (epDelay key) gDelayMs
      maxRetries s fs
    let r2 := exportKeys oracle dayStr dayDir epDelay gDelayMs maxRetries rest
      r.state r.fs
    ⟨r2.state, r2.fs, r.events ++ r2.events⟩

/-- `export_day` (src/historical_export.py:111-155): the endpoint loop over
`ENDPOINTS` for one UTC day. -/
def export_day (oracle : String → Nat → Attempt)
    (symbol interval dayStr outRoot : String) (epDelay : String → Nat)
    (gDelayMs maxRetries : Nat) (s : StateMap) (fs : List String) : RunResult :=
  exportKeys oracle dayStr (dayDirOf outRoot symbol interval dayStr) epDelay
    gDelayMs maxRetries ENDPOINT_KEYS s fs

/-- The day loop of `main` (src/historical_export.py:176-178) over one
`(symbol, interval)` pair: `export_day` for each day in order, threading the
state dict. -/
def exportDays (oracle : String → String → Nat → Attempt)
    (symbol interval outRoot : String) (epDelay : String → Nat)
    (gDelayMs maxRetries : Nat) :
    List String → StateMap → List String → RunResult
  | [], s, fs => ⟨s, fs, []⟩
  | d :: rest, s, fs =>
    let r := export_day (oracle d) symbol interval d outRoot epDelay gDelayMs
      maxRetries s fs
    let r2 := exportDays oracle symbol interval outRoot epDelay gDelayMs
      maxRetries rest r.state r.fs
    ⟨r2.state, r2.fs, r.events ++ r2.events⟩

/-- The work units of a run, in enumerator order: day ascending, then
category in declared order (one `(symbol, interval)` pair). -/
def unitsOf (days : List String) : List (String × String) :=
  days.flatMap fun d => ENDPOINT_KEYS.map fun k => (d, k)

/-- The same iteration flattened over an explicit `(day, key)` unit list. -/
def exportUnits (oracle : String → String → Nat → Attempt)
    (symbol interval outRoot : String) (epDelay : String → Nat)
    (gDelayMs maxRetries : Nat) :
    List (String × String) → StateMap → List String → RunResult
  | [], s, fs => ⟨s, fs, []⟩
  | (d, k) :: rest, s, fs =>
    let r := processUnit (oracle d k) d (dayDirOf outRoot symbol interval d) k
      (epDelay k) gDelayMs maxRetries s fs
    let r2 := exportUnits oracle symbol interval outRoot epDelay gDelayMs
      maxRetries rest r.state r.fs
    ⟨r2.state, r2.fs, r.events ++ r2.events⟩

/-! ## Basic lemmas about the scheduler model -/

theorem lookup_setState (s : StateMap) (key v q : String) :
    lookupState (setState s key v) q =
      if key = q then some v else lookupState s q := by
  induction s with
  | nil => simp [setState, lookupState]
  | cons hd tl ih =>
    obtain ⟨k0, v0⟩ := hd
    by_cases h0 : k0 = key
    · subst h0
      by_cases h1 : k0 = q <;> simp [setState, lookupState, h1]
    · simp only [setState, if_neg h0]
      by_cases h1 : k0 = q
      · subst h1
        have hkq : ¬ key = k0 := fun h => h0 h.symm
        simp [lookupState, hkq]
      · simp [lookupState, h1, ih]

theorem errPrefix_ne_ok (msg : String) : ("error:" ++ msg) ≠ "ok" := by
  intro h
  have hlen := congrArg String.length h
  rw [String.length_append] at hlen
  have h6 : "error:".length = 6 := rfl
  have h2 : "ok".length = 2 := rfl
  omega

theorem processUnit_skip (oracle : Nat → Attempt) (dayStr dayDir key : String)
    (epDelayMs gDelayMs maxRetries : Nat) (s : StateMap) (fs : List String)
    (h : lookupState s (doneKeyOf dayStr key) = some "ok" ∨
      fs.contains (outPathOf dayDir key) = true) :
    processUnit oracle dayStr dayDir key epDelayMs gDelayMs maxRetries s fs
      = ⟨s, fs, []⟩ := by
  have hcond : (fs.contains (outPathOf dayDir key) ||
      (lookupState s (doneKeyOf dayStr key) == some "ok")) = true := by
    rcases h with h | h
    · rw [h]
      simp
    · rw [h]
      simp
  simp only [processUnit, hcond]
  rfl

theorem runAttempts_success (oracle : Nat → Attempt) (dk path : String)
    (errDelayMs tries fuel : Nat) (s : StateMap) {resp : Json}
    (h : oracle tries = .success resp) :
    runAttempts oracle dk path errDelayMs tries fuel s =
      (setState s dk "ok",
        [.fetch dk tries, .write path (unwrap_history resp), .markOk dk path]) := by
  rw [runAttempts, h]

theorem runAttempts_fetchFail_zero (oracle : Nat → Attempt) (dk path : String)
    (errDelayMs tries : Nat) (s : StateMap) {msg : String}
    (h : oracle tries = .fetchFail msg) :
    runAttempts oracle dk path errDelayMs tries 0 s =
      (setState s dk ("error:" ++ msg), [.fetch dk tries, .markErr dk msg]) := by
  rw [runAttempts, h]

theorem runAttempts_fetchFail_succ (oracle : Nat → Attempt) (dk path : String)
    (errDelayMs tries fuel : Nat) (s : StateMap) {msg : String}
    (h : oracle tries = .fetchFail msg) :
    runAttempts oracle dk path errDelayMs tries (fuel + 1) s =
      ((runAttempts oracle dk path errDelayMs (tries + 1) fuel s).1,
        .fetch dk tries :: .sleep errDelayMs ::
          (runAttempts oracle dk path errDelayMs (tries + 1) fuel s).2) := by
  rw [runAttempts, h]

theorem runAttempts_writeFail_zero (oracle : Nat → Attempt) (dk path : String)
    (errDelayMs tries : Nat) (s : StateMap) {resp : Json} {msg : String}
    (h : oracle tries = .writeFail resp msg) :
    runAttempts oracle dk path errDelayMs tries 0 s =
      (setState s dk ("error:" ++ msg), [.fetch dk tries, .markErr dk msg]) := by
  rw [runAttempts, h]

theorem runAttempts_writeFail_succ (oracle : Nat → Attempt) (dk path : String)
    (errDelayMs tries fuel : Nat) (s : StateMap) {resp : Json} {msg : String}
    (h : oracle tries = .writeFail resp msg) :
    runAttempts oracle dk path errDelayMs tries (fuel + 1) s =
      ((runAttempts oracle dk path errDelayMs (tries + 1) fuel s).1,
        .fetch dk tries :: .sleep errDelayMs ::
          (runAttempts oracle dk path errDelayMs (tries + 1) fuel s).2) := by
  rw [runAttempts, h]

theorem runAttempts_events_head (oracle : Nat → Attempt) (dk path : String)
    (errDelayMs : Nat) (tries fuel : Nat) (s : StateMap) :
    ∃ rest, (runAttempts oracle dk path errDelayMs tries fuel s).2
      = .fetch dk tries :: rest := by
  cases h : oracle tries with
  | success resp =>
    exact ⟨_, by rw [runAttempts_success oracle dk path errDelayMs tries fuel s h]⟩
  | fetchFail msg =>
    cases fuel with
    | zero =>
      exact ⟨_, by rw [runAttempts_fetchFail_zero oracle dk path errDelayMs tries s h]⟩
    | succ fuel' =>
      exact ⟨_, by rw [runAttempts_fetchFail_succ oracle dk path errDelayMs tries fuel' s h]⟩
  | writeFail resp msg =>
    cases fuel with
    | zero =>
      exact ⟨_, by rw [runAttempts_writeFail_zero oracle dk path errDelayMs tries s h]⟩
    | succ fuel' =>
      exact ⟨_, by rw [runAttempts_writeFail_succ oracle dk path errDelayMs tries fuel' s h]⟩

/-- C2: re-running over an identical range is idempotent — if every
`(day, category)` unit of the range is already `"ok"` in the completion state
(or its artifact file exists), the run performs no action at all: no fetch,
no sleep, no write, no state change, no file change. -/
theorem export_rerun_idempotent
    (oracle : String → String → Nat → Attempt) (symbol interval outRoot : String)
    (epDelay : String → Nat) (gDelayMs maxRetries : Nat) (days : List String)
    (s : StateMap) (fs : List String)
    (hdone : ∀ d ∈ days, ∀ k ∈ ENDPOINT_KEYS,
      lookupState s (doneKeyOf d k) = some "ok" ∨
        fs.contains (outPathOf (dayDirOf outRoot symbol interval d) k) = true) :
    exportDays oracle symbol interval outRoot epDelay gDelayMs maxRetries days s fs
      = ⟨s, fs, []⟩ := by
  have hkeys : ∀ (oracle' : String → Nat → Attempt) (dayStr dayDir : String)
      (keys : List String) (s' : StateMap) (fs' : List String),
      (∀ k ∈ keys, lookupState s' (doneKeyOf dayStr k) = some "ok" ∨
        fs'.contains (outPathOf dayDir k) = true) →
      exportKeys oracle' dayStr dayDir epDelay gDelayMs maxRetries keys s' fs'
        = ⟨s', fs', []⟩ := by
    intro oracle' dayStr dayDir keys
    induction keys with
    | nil => intro s' fs' _; rfl
    | cons k rest ih =>
      intro s' fs' hall
      have hskip := processUnit_skip (oracle' k) dayStr dayDir k (epDelay k)
        gDelayMs maxRetries s' fs' (hall k (List.mem_cons_self k rest))
      have hrest := ih s' fs' (fun x hx => hall x (List.mem_cons_of_mem k hx))
      simp [exportKeys, hskip, hrest]
  induction days generalizing s fs with
  | nil => rfl
  | cons d rest ih =>
    have hday : export_day (oracle d) symbol interval d outRoot epDelay gDelayMs
        maxRetries s fs = ⟨s, fs, []⟩ :=
      hkeys (oracle d) d (dayDirOf outRoot symbol interval d) ENDPOINT_KEYS s fs
        (hdone d (List.mem_cons_self d rest))
    have hrest := ih s fs (fun x hx => hdone x (List.mem_cons_of_mem d hx))
    simp [exportDays, export_day] at hday ⊢
    simp [hday, hrest]

/-- Witness for C2: a one-day range whose six units are all `"ok"` in the
pre-seeded completion state; the run is a no-op. -/
theorem export_rerun_idempotent_witness :
    exportDays (fun _ _ _ => .success .null) "BTCUSDT_PERP.A" "1min" "/data/lake"
      (fun k => EP_DELAY_MS k) 400 MAX_RETRIES ["2024-01-01"]
      [("2024-01-01:ohlcv", "ok"), ("2024-01-01:oi", "ok"), ("2024-01-01:fr", "ok"),
       ("2024-01-01:pfr", "ok"), ("2024-01-01:ls", "ok"), ("2024-01-01:liq", "ok")] []
      = ⟨[("2024-01-01:ohlcv", "ok"), ("2024-01-01:oi", "ok"), ("2024-01-01:fr", "ok"),
          ("2024-01-01:pfr", "ok"), ("2024-01-01:ls", "ok"), ("2024-01-01:liq", "ok")],
         [], []⟩ :=
  export_rerun_idempotent _ _ _ _ _ _ _ _ _ _ (by decide)

theorem processUnit_run (oracle : Nat → Attempt) (dayStr dayDir key : String)
    (epDelayMs gDelayMs maxRetries : Nat) (s : StateMap) (fs : List String)
    (hc : (fs.contains (outPathOf dayDir key) ||
      (lookupState s (doneKeyOf dayStr key) == some "ok")) = false) :
    processUnit oracle dayStr dayDir key epDelayMs gDelayMs maxRetries s fs =
      ⟨(runAttempts oracle (doneKeyOf dayStr key) (outPathOf dayDir key)
          (max epDelayMs 2000) 1 (maxRetries - 1) s).1,
        fs ++ writtenPaths (runAttempts oracle (doneKeyOf dayStr key)
          (outPathOf dayDir key) (max epDelayMs 2000) 1 (maxRetries - 1) s).2,
        .sleep epDelayMs :: (runAttempts oracle (doneKeyOf dayStr key)
          (outPathOf dayDir key) (max epDelayMs 2000) 1 (maxRetries - 1) s).2
          ++ [.sleep gDelayMs, .saveState]⟩ := by
  simp only [processUnit, hc]
  rfl

/-- C3 counterexample: with a completion state holding
`"2024-01-02:ohlcv" ↦ "error:boom"` (artifact absent) and every other unit
`"ok"`, a re-run of `export_day` performs a fetch — exactly one, and it is for
the `error:*` unit, which the claim says would be skipped with no fetch. -/
theorem error_entry_skipped_counterexample :
    fetchEvents (export_day (fun _ _ => .success (.arr [])) "BTCUSDT_PERP.A"
      "1min" "2024-01-02" "/data/lake" (fun k => EP_DELAY_MS k) 400 MAX_RETRIES
      [("2024-01-02:ohlcv", "error:boom"), ("2024-01-02:oi", "ok"),
       ("2024-01-02:fr", "ok"), ("2024-01-02:pfr", "ok"),
       ("2024-01-02:ls", "ok"), ("2024-01-02:liq", "ok")] []).events
      = [("2024-01-02:ohlcv", 1)] := by
  rfl

/-- C3 (amended): a unit whose completion entry is `error:<reason>` and whose
artifact file does not exist is NOT skipped: a later run re-attempts it — it
is paced and fetched again (only `"ok"` entries or an existing artifact cause
a skip, so clearing the state is not needed for a retry). -/
theorem error_entry_is_refetched (oracle : Nat → Attempt)
    (dayStr dayDir key : String) (epDelayMs gDelayMs maxRetries : Nat)
    (s : StateMap) (fs : List String) (msg : String)
    (herr : lookupState s (doneKeyOf dayStr key) = some ("error:" ++ msg))
    (hfile : fs.contains (outPathOf dayDir key) = false) :
    ∃ rest, (processUnit oracle dayStr dayDir key epDelayMs gDelayMs maxRetries
        s fs).events
      = .sleep epDelayMs :: .fetch (doneKeyOf dayStr key) 1 :: rest := by
  have hbeq : (lookupState s (doneKeyOf dayStr key) == some "ok") = false := by
    rw [herr]
    exact beq_eq_false_iff_ne.mpr (by simpa using errPrefix_ne_ok msg)
  obtain ⟨rest, hrest⟩ := runAttempts_events_head oracle (doneKeyOf dayStr key)
    (outPathOf dayDir key) (max epDelayMs 2000) 1 (maxRetries - 1) s
  refine ⟨rest ++ [.sleep gDelayMs, .saveState], ?_⟩
  rw [processUnit_run oracle dayStr dayDir key epDelayMs gDelayMs maxRetries s fs
    (by rw [hfile, hbeq]; rfl)]
  rw [hrest]
  rfl

/-- Witness for the amended C3: a concrete error-marked unit with no artifact
is paced and fetched on the next run. -/
theorem error_entry_is_refetched_witness :
    ∃ rest, (processUnit (fun _ => .success (.arr [])) "2024-01-02"
        "/data/lake/BTCUSDT_PERP.A/1min/2024-01-02" "ohlcv" 600 400 8
        [("2024-01-02:ohlcv", "error:boom")] []).events
      = .sleep 600 :: .fetch (doneKeyOf "2024-01-02" "ohlcv") 1 :: rest :=
  error_entry_is_refetched _ _ _ _ _ _ _ _ _ "boom" (by rfl) (by rfl)

/-! ## C4: the write-before-ok ordering invariant -/

/-- Every `markOk` in a trace is preceded by a completed write of the marked
unit's artifact path. -/
def okPreceded (evs : List Ev) : Prop :=
  ∀ (l1 : List Ev) (dk p : String) (l2 : List Ev),
    evs = l1 ++ .markOk dk p :: l2 → ∃ rows, Ev.write p rows ∈ l1

theorem okPreceded_nil : okPreceded [] := by
  intro l1 dk p l2 heq
  have hlen := congrArg List.length heq
  simp at hlen
  omega

theorem okPreceded_of_no_markOk {evs : List Ev}
    (h : ∀ dk p, Ev.markOk dk p ∉ evs) : okPreceded evs := by
  intro l1 dk p l2 heq
  apply absurd _ (h dk p)
  rw [heq]
  exact List.mem_append_right l1 (List.mem_cons_self _ _)

theorem okPreceded_cons {e : Ev} {evs : List Ev}
    (hne : ∀ dk p, e ≠ .markOk dk p) (h : okPreceded evs) :
    okPreceded (e :: evs) := by
  intro l1 dk p l2 heq
  cases l1 with
  | nil =>
    rw [List.nil_append] at heq
    injection heq with he _
    exact absurd he (hne dk p)
  | cons a t =>
    rw [List.cons_append] at heq
    injection heq with _ ht
    obtain ⟨rows, hrows⟩ := h t dk p l2 ht
    exact ⟨rows, List.mem_cons_of_mem a hrows⟩

theorem okPreceded_append {e1 e2 : List Ev} (h1 : okPreceded e1)
    (h2 : okPreceded e2) : okPreceded (e1 ++ e2) := by
  intro l1 dk p l2 heq
  rcases List.append_eq_append_iff.mp heq with ⟨a, ha1, ha2⟩ | ⟨c, hc1, hc2⟩
  · obtain ⟨rows, hrows⟩ := h2 a dk p l2 ha2
    exact ⟨rows, ha1 ▸ List.mem_append_right e1 hrows⟩
  · cases c with
    | nil =>
      rw [List.nil_append] at hc2
      obtain ⟨rows, hrows⟩ := h2 [] dk p l2 hc2.symm
      exact absurd hrows (List.not_mem_nil _)
    | cons x c' =>
      rw [List.cons_append] at hc2
      injection hc2 with hx _
      rw [← hx] at hc1
      exact h1 l1 dk p c' hc1

theorem okPreceded_success_trace (dk p : String) (t : Nat) (rows : Json) :
    okPreceded [.fetch dk t, .write p rows, .markOk dk p] := by
  intro l1 dk' p' l2 heq
  rcases l1 with _ | ⟨a, _ | ⟨b, _ | ⟨c, l1'⟩⟩⟩
  · rw [List.nil_append] at heq
    injection heq with h1 _
    exact absurd h1 (by simp)
  · rw [List.cons_append, List.nil_append] at heq
    injection heq with _ heq
    injection heq with h2 _
    exact absurd h2 (by simp)
  · simp only [List.cons_append, List.nil_append] at heq
    injection heq with _ heq
    injection heq with hb heq
    injection heq with hm _
    injection hm with _ hp
    refine ⟨rows, ?_⟩
    rw [← hp, ← hb]
    exact List.mem_cons_of_mem a (List.mem_cons_self _ _)
  · simp only [List.cons_append] at heq
    injection heq with _ heq
    injection heq with _ heq
    injection heq with _ heq
    have hlen := congrArg List.length heq
    simp at hlen
    omega

theorem okPreceded_runAttempts (oracle : Nat → Attempt) (dk path : String)
    (errDelayMs : Nat) :
    ∀ fuel tries s,
      okPreceded (runAttempts oracle dk path errDelayMs tries fuel s).2 := by
  intro fuel
  induction fuel with
  | zero =>
    intro tries s
    cases h : oracle tries with
    | success resp =>
      rw [runAttempts_success oracle dk path errDelayMs tries 0 s h]
      exact okPreceded_success_trace dk path tries (unwrap_history resp)
    | fetchFail msg =>
      rw [runAttempts_fetchFail_zero oracle dk path errDelayMs tries s h]
      exact okPreceded_of_no_markOk (by intro dk' p'; simp)
    | writeFail resp msg =>
      rw [runAttempts_writeFail_zero oracle dk path errDelayMs tries s h]
      exact okPreceded_of_no_markOk (by intro dk' p'; simp)
  | succ fuel' ih =>
    intro tries s
    cases h : oracle tries with
    | success resp =>
      rw [runAttempts_success oracle dk path errDelayMs tries (fuel' + 1) s h]
      exact okPreceded_success_trace dk path tries (unwrap_history resp)
    | fetchFail msg =>
      rw [runAttempts_fetchFail_succ oracle dk path errDelayMs tries fuel' s h]
      exact okPreceded_cons (by intro dk' p'; simp)
        (okPreceded_cons (by intro dk' p'; simp) (ih (tries + 1) s))
    | writeFail resp msg =>
      rw [runAttempts_writeFail_succ oracle dk path errDelayMs tries fuel' s h]
      exact okPreceded_cons (by intro dk' p'; simp)
        (okPreceded_cons (by intro dk' p'; simp) (ih (tries + 1) s))

theorem processUnit_skip_of_cond (oracle : Nat → Attempt)
    (dayStr dayDir key : String) (epDelayMs gDelayMs maxRetries : Nat)
    (s : StateMap) (fs : List String)
    (hc : (fs.contains (outPathOf dayDir key) ||
      (lookupState s (doneKeyOf dayStr key) == some "ok")) = true) :
    processUnit oracle dayStr dayDir key epDelayMs gDelayMs maxRetries s fs
      = ⟨s, fs, []⟩ := by
  simp only [processUnit, hc]
  rfl

theorem okPreceded_processUnit (oracle : Nat → Attempt)
    (dayStr dayDir key : String) (epDelayMs gDelayMs maxRetries : Nat)
    (s : StateMap) (fs : List String) :
    okPreceded (processUnit oracle dayStr dayDir key epDelayMs gDelayMs
      maxRetries s fs).events := by
  cases hc : (fs.contains (outPathOf dayDir key) ||
      (lookupState s (doneKeyOf dayStr key) == some "ok")) with
  | true =>
    rw [processUnit_skip_of_cond oracle dayStr dayDir key epDelayMs gDelayMs
      maxRetries s fs hc]
    exact okPreceded_nil
  | false =>
    rw [processUnit_run oracle dayStr dayDir key epDelayMs gDelayMs
      maxRetries s fs hc]
    exact okPreceded_cons (by intro dk' p'; simp)
      (okPreceded_append
        (okPreceded_runAttempts _ _ _ _ _ _ _)
        (okPreceded_of_no_markOk (by intro dk' p'; simp)))

theorem okPreceded_exportKeys (oracle : String → Nat → Attempt)
    (dayStr dayDir : String) (epDelay : String → Nat)
    (gDelayMs maxRetries : Nat) :
    ∀ (keys : List String) (s : StateMap) (fs : List String),
      okPreceded (exportKeys oracle dayStr dayDir epDelay gDelayMs maxRetries
        keys s fs).events := by
  intro keys
  induction keys with
  | nil => intro s fs; exact okPreceded_nil
  | cons k rest ih =>
    intro s fs
    simp only [exportKeys]
    exact okPreceded_append (okPreceded_processUnit _ _ _ _ _ _ _ _ _) (ih _ _)

theorem okPreceded_exportDays (oracle : String → String → Nat → Attempt)
    (symbol interval outRoot : String) (epDelay : String → Nat)
    (gDelayMs maxRetries : Nat) :
    ∀ (days : List String) (s : StateMap) (fs : List String),
      okPreceded (exportDays oracle symbol interval outRoot epDelay gDelayMs
        maxRetries days s fs).events := by
  intro days
  induction days with
  | nil => intro s fs; exact okPreceded_nil
  | cons d rest ih =>
    intro s fs
    simp only [exportDays, export_day]
    exact okPreceded_append (okPreceded_exportKeys _ _ _ _ _ _ _ _ _) (ih _ _)

theorem exportKeys_cons (oracle : String → Nat → Attempt) (dayStr dayDir : String)
    (epDelay : String → Nat) (gDelayMs maxRetries : Nat) (k : String)
    (rest : List String) (s : StateMap) (fs : List String) :
    exportKeys oracle dayStr dayDir epDelay gDelayMs maxRetries (k :: rest) s fs =
      ⟨(exportKeys oracle dayStr dayDir epDelay gDelayMs maxRetries rest
          (processUnit (oracle k) dayStr dayDir k (epDelay k) gDelayMs maxRetries s fs).state
          (processUnit (oracle k) dayStr dayDir k (epDelay k) gDelayMs maxRetries s fs).fs).state,
        (exportKeys oracle dayStr dayDir epDelay gDelayMs maxRetries rest
          (processUnit (oracle k) dayStr dayDir k (epDelay k) gDelayMs maxRetries s fs).state
          (processUnit (oracle k) dayStr dayDir k (epDelay k) gDelayMs maxRetries s fs).fs).fs,
        (processUnit (oracle k) dayStr dayDir k (epDelay k) gDelayMs maxRetries s fs).events ++
          (exportKeys oracle dayStr dayDir epDelay gDelayMs maxRetries rest
            (processUnit (oracle k) dayStr dayDir k (epDelay k) gDelayMs maxRetries s fs).state
            (processUnit (oracle k) dayStr dayDir k (epDelay k) gDelayMs maxRetries s fs).fs).events⟩ :=
  rfl

theorem exportDays_cons (oracle : String → String → Nat → Attempt)
    (symbol interval outRoot : String) (epDelay : String → Nat)
    (gDelayMs maxRetries : Nat) (d : String) (rest : List String)
    (s : StateMap) (fs : List String) :
    exportDays oracle symbol interval outRoot epDelay gDelayMs maxRetries
        (d :: rest) s fs =
      ⟨(exportDays oracle symbol interval outRoot epDelay gDelayMs maxRetries rest
          (export_day (oracle d) symbol interval d outRoot epDelay gDelayMs maxRetries s fs).state
          (export_day (oracle d) symbol interval d outRoot epDelay gDelayMs maxRetries s fs).fs).state,
        (exportDays oracle symbol interval outRoot epDelay gDelayMs maxRetries rest
          (export_day (oracle d) symbol interval d outRoot epDelay gDelayMs maxRetries s fs).state
          (export_day (oracle d) symbol interval d outRoot epDelay gDelayMs maxRetries s fs).fs).fs,
        (export_day (oracle d) symbol interval d outRoot epDelay gDelayMs maxRetries s fs).events ++
          (exportDays oracle symbol interval outRoot epDelay gDelayMs maxRetries rest
            (export_day (oracle d) symbol interval d outRoot epDelay gDelayMs maxRetries s fs).state
            (export_day (oracle d) symbol interval d outRoot epDelay gDelayMs maxRetries s fs).fs).events⟩ :=
  rfl

theorem exportUnits_cons (oracle : String → String → Nat → Attempt)
    (symbol interval outRoot : String) (epDelay : String → Nat)
    (gDelayMs maxRetries : Nat) (d k : String)
    (rest : List (String × String)) (s : StateMap) (fs : List String) :
    exportUnits oracle symbol interval outRoot epDelay gDelayMs maxRetries
        ((d, k) :: rest) s fs =
      ⟨(exportUnits oracle symbol interval outRoot epDelay gDelayMs maxRetries rest
          (processUnit (oracle d k) d (dayDirOf outRoot symbol interval d) k
            (epDelay k) gDelayMs maxRetries s fs).state
          (processUnit (oracle d k) d (dayDirOf outRoot symbol interval d) k
            (epDelay k) gDelayMs maxRetries s fs).fs).state,
        (exportUnits oracle symbol interval outRoot epDelay gDelayMs maxRetries rest
          (processUnit (oracle d k) d (dayDirOf outRoot symbol interval d) k
            (epDelay k) gDelayMs maxRetries s fs).state
          (processUnit (oracle d k) d (dayDirOf outRoot symbol interval d) k
            (epDelay k) gDelayMs maxRetries s fs).fs).fs,
        (processUnit (oracle d k) d (dayDirOf outRoot symbol interval d) k
          (epDelay k) gDelayMs maxRetries s fs).events ++
          (exportUnits oracle symbol interval outRoot epDelay gDelayMs maxRetries rest
            (processUnit (oracle d k) d (dayDirOf outRoot symbol interval d) k
              (epDelay k) gDelayMs maxRetries s fs).state
            (processUnit (oracle d k) d (dayDirOf outRoot symbol interval d) k
              (epDelay k) gDelayMs maxRetries s fs).fs).events⟩ :=
  rfl

theorem runAttempts_ok_source (oracle : Nat → Attempt) (dk path : String)
    (errDelayMs : Nat) :
    ∀ (fuel tries : Nat) (s : StateMap) (dk' : String),
      lookupState (runAttempts oracle dk path errDelayMs tries fuel s).1 dk'
        = some "ok" →
      lookupState s dk' = some "ok" ∨
        ∃ p, Ev.markOk dk' p ∈ (runAttempts oracle dk path errDelayMs tries fuel s).2 := by
  intro fuel
  induction fuel with
  | zero =>
    intro tries s dk' hok
    cases h : oracle tries with
    | success resp =>
      rw [runAttempts_success oracle dk path errDelayMs tries 0 s h] at hok ⊢
      rw [lookup_setState] at hok
      by_cases hdk : dk = dk'
      · subst hdk
        exact Or.inr ⟨path, by simp⟩
      · rw [if_neg hdk] at hok
        exact Or.inl hok
    | fetchFail msg =>
      rw [runAttempts_fetchFail_zero oracle dk path errDelayMs tries s h] at hok ⊢
      rw [lookup_setState] at hok
      by_cases hdk : dk = dk'
      · rw [if_pos hdk] at hok
        injection hok with hbad
        exact absurd hbad (errPrefix_ne_ok msg)
      · rw [if_neg hdk] at hok
        exact Or.inl hok
    | writeFail resp msg =>
      rw [runAttempts_writeFail_zero oracle dk path errDelayMs tries s h] at hok ⊢
      rw [lookup_setState] at hok
      by_cases hdk : dk = dk'
      · rw [if_pos hdk] at hok
        injection hok with hbad
        exact absurd hbad (errPrefix_ne_ok msg)
      · rw [if_neg hdk] at hok
        exact Or.inl hok
  | succ fuel' ih =>
    intro tries s dk' hok
    cases h : oracle tries with
    | success resp =>
      rw [runAttempts_success oracle dk path errDelayMs tries (fuel' + 1) s h] at hok ⊢
      rw [lookup_setState] at hok
      by_cases hdk : dk = dk'
      · subst hdk
        exact Or.inr ⟨path, by simp⟩
      · rw [if_neg hdk] at hok
        exact Or.inl hok
    | fetchFail msg =>
      rw [runAttempts_fetchFail_succ oracle dk path errDelayMs tries fuel' s h] at hok ⊢
      rcases ih (tries + 1) s dk' hok with hl | ⟨p, hp⟩
      · exact Or.inl hl
      · exact Or.inr ⟨p, List.mem_cons_of_mem _ (List.mem_cons_of_mem _ hp)⟩
    | writeFail resp msg =>
      rw [runAttempts_writeFail_succ oracle dk path errDelayMs tries fuel' s h] at hok ⊢
      rcases ih (tries + 1) s dk' hok with hl | ⟨p, hp⟩
      · exact Or.inl hl
      · exact Or.inr ⟨p, List.mem_cons_of_mem _ (List.mem_cons_of_mem _ hp)⟩

theorem processUnit_ok_source (oracle : Nat → Attempt)
    (dayStr dayDir key : String) (epDelayMs gDelayMs maxRetries : Nat)
    (s : StateMap) (fs : List String) (dk' : String)
    (hok : lookupState (processUnit oracle dayStr dayDir key epDelayMs gDelayMs
      maxRetries s fs).state dk' = some "ok") :
    lookupState s dk' = some "ok" ∨
      ∃ p, Ev.markOk dk' p ∈ (processUnit oracle dayStr dayDir key epDelayMs
        gDelayMs maxRetries s fs).events := by
  cases hc : (fs.contains (outPathOf dayDir key) ||
      (lookupState s (doneKeyOf dayStr key) == some "ok")) with
  | true =>
    rw [processUnit_skip_of_cond oracle dayStr dayDir key epDelayMs gDelayMs
      maxRetries s fs hc] at hok
    exact Or.inl hok
  | false =>
    rw [processUnit_run oracle dayStr dayDir key epDelayMs gDelayMs
      maxRetries s fs hc] at hok ⊢
    rcases runAttempts_ok_source oracle (doneKeyOf dayStr key)
      (outPathOf dayDir key) (max epDelayMs 2000) (maxRetries - 1) 1 s dk' hok
      with hl | ⟨p, hp⟩
    · exact Or.inl hl
    · exact Or.inr ⟨p, List.mem_cons_of_mem _ (List.mem_append_left _ hp)⟩

theorem exportKeys_ok_source (oracle : String → Nat → Attempt)
    (dayStr dayDir : String) (epDelay : String → Nat)
    (gDelayMs maxRetries : Nat) :
    ∀ (keys : List String) (s : StateMap) (fs : List String) (dk' : String),
      lookupState (exportKeys oracle dayStr dayDir epDelay gDelayMs maxRetries
        keys s fs).state dk' = some "ok" →
      lookupState s dk' = some "ok" ∨
        ∃ p, Ev.markOk dk' p ∈ (exportKeys oracle dayStr dayDir epDelay
          gDelayMs maxRetries keys s fs).events := by
  intro keys
  induction keys with
  | nil => intro s fs dk' hok; exact Or.inl hok
  | cons k rest ih =>
    intro s fs dk' hok
    rw [exportKeys_cons] at hok ⊢
    rcases ih _ _ dk' hok with hl | ⟨p, hp⟩
    · rcases processUnit_ok_source (oracle k) dayStr dayDir k (epDelay k)
        gDelayMs maxRetries s fs dk' hl with hl2 | ⟨p, hp⟩
      · exact Or.inl hl2
      · exact Or.inr ⟨p, List.mem_append_left _ hp⟩
    · exact Or.inr ⟨p, List.mem_append_right _ hp⟩

theorem exportDays_ok_source (oracle : String → String → Nat → Attempt)
    (symbol interval outRoot : String) (epDelay : String → Nat)
    (gDelayMs maxRetries : Nat) :
    ∀ (days : List String) (s : StateMap) (fs : List String) (dk' : String),
      lookupState (exportDays oracle symbol interval outRoot epDelay gDelayMs
        maxRetries days s fs).state dk' = some "ok" →
      lookupState s dk' = some "ok" ∨
        ∃ p, Ev.markOk dk' p ∈ (exportDays oracle symbol interval outRoot
          epDelay gDelayMs maxRetries days s fs).events := by
  intro days
  induction days with
  | nil => intro s fs dk' hok; exact Or.inl hok
  | cons d rest ih =>
    intro s fs dk' hok
    rw [exportDays_cons] at hok ⊢
    rcases ih _ _ dk' hok with hl | ⟨p, hp⟩
    · rcases exportKeys_ok_source (oracle d) d
        (dayDirOf outRoot symbol interval d) epDelay gDelayMs maxRetries
        ENDPOINT_KEYS s fs dk' hl with hl2 | ⟨p, hp⟩
      · exact Or.inl hl2
      · exact Or.inr ⟨p, List.mem_append_left _ hp⟩
    · exact Or.inr ⟨p, List.mem_append_right _ hp⟩

/-- C4: the completion state records `"ok"` only after a confirmed durable
write.  First conjunct: in the trace of any run, every `markOk` of a unit is
preceded by a completed `write` of that unit's artifact path (the write
happens strictly before the mark).  Second conjunct: any key that is `"ok"`
in the final state was either already `"ok"` before the run or was set by
such a `markOk` event of the run. -/
theorem ok_entries_follow_completed_writes
    (oracle : String → String → Nat → Attempt) (symbol interval outRoot : String)
    (epDelay : String → Nat) (gDelayMs maxRetries : Nat) (days : List String)
    (s : StateMap) (fs : List String) :
    (∀ (l1 : List Ev) (dk p : String) (l2 : List Ev),
      (exportDays oracle symbol interval outRoot epDelay gDelayMs maxRetries
        days s fs).events = l1 ++ .markOk dk p :: l2 →
      ∃ rows, Ev.write p rows ∈ l1) ∧
    (∀ dk' : String,
      lookupState (exportDays oracle symbol interval outRoot epDelay gDelayMs
        maxRetries days s fs).state dk' = some "ok" →
      lookupState s dk' = some "ok" ∨
        ∃ p, Ev.markOk dk' p ∈ (exportDays oracle symbol interval outRoot
          epDelay gDelayMs maxRetries days s fs).events) :=
  ⟨fun l1 dk p l2 heq =>
    okPreceded_exportDays oracle symbol interval outRoot epDelay gDelayMs
      maxRetries days s fs l1 dk p l2 heq,
   fun dk' hok =>
    exportDays_ok_source oracle symbol interval outRoot epDelay gDelayMs
      maxRetries days s fs dk' hok⟩

/-- Witness for C4: a concrete run in which only the `ohlcv` unit of
2024-01-01 executes.  Splitting its trace at the `markOk` exhibits the
completed `write` of the same path in the prefix, and the final `"ok"` entry
traces back to a `markOk` event of the run. -/
theorem ok_entries_follow_completed_writes_witness :
    (∃ rows, Ev.write "/data/lake/BTCUSDT_PERP.A/1min/2024-01-01/ohlcv.jsonl" rows ∈
      [Ev.sleep 600, Ev.fetch "2024-01-01:ohlcv" 1,
       Ev.write "/data/lake/BTCUSDT_PERP.A/1min/2024-01-01/ohlcv.jsonl" (Json.arr [])]) ∧
    (lookupState [("2024-01-01:oi", "ok"), ("2024-01-01:fr", "ok"),
        ("2024-01-01:pfr", "ok"), ("2024-01-01:ls", "ok"), ("2024-01-01:liq", "ok")]
        "2024-01-01:ohlcv" = some "ok" ∨
      ∃ p, Ev.markOk "2024-01-01:ohlcv" p ∈
        (exportDays (fun _ _ _ => .success (.arr [])) "BTCUSDT_PERP.A" "1min"
          "/data/lake" (fun k => EP_DELAY_MS k) 400 MAX_RETRIES ["2024-01-01"]
          [("2024-01-01:oi", "ok"), ("2024-01-01:fr", "ok"), ("2024-01-01:pfr", "ok"),
           ("2024-01-01:ls", "ok"), ("2024-01-01:liq", "ok")] []).events) :=
  ⟨(ok_entries_follow_completed_writes (fun _ _ _ => .success (.arr []))
      "BTCUSDT_PERP.A" "1min" "/data/lake" (fun k => EP_DELAY_MS k) 400
      MAX_RETRIES ["2024-01-01"]
      [("2024-01-01:oi", "ok"), ("2024-01-01:fr", "ok"), ("2024-01-01:pfr", "ok"),
       ("2024-01-01:ls", "ok"), ("2024-01-01:liq", "ok")] []).1
      [Ev.sleep 600, Ev.fetch "2024-01-01:ohlcv" 1,
       Ev.write "/data/lake/BTCUSDT_PERP.A/1min/2024-01-01/ohlcv.jsonl" (Json.arr [])]
      "2024-01-01:ohlcv" "/data/lake/BTCUSDT_PERP.A/1min/2024-01-01/ohlcv.jsonl"
      [Ev.sleep 400, Ev.saveState] rfl,
   (ok_entries_follow_completed_writes (fun _ _ _ => .success (.arr []))
      "BTCUSDT_PERP.A" "1min" "/data/lake" (fun k => EP_DELAY_MS k) 400
      MAX_RETRIES ["2024-01-01"]
      [("2024-01-01:oi", "ok"), ("2024-01-01:fr", "ok"), ("2024-01-01:pfr", "ok"),
       ("2024-01-01:ls", "ok"), ("2024-01-01:liq", "ok")] []).2
      "2024-01-01:ohlcv" rfl⟩

/-! ## C5: retry exhaustion and partial-failure containment -/

theorem writtenPaths_nil : writtenPaths [] = [] := rfl

theorem writtenPaths_cons_sleep (ms : Nat) (l : List Ev) :
    writtenPaths (.sleep ms :: l) = writtenPaths l := rfl

theorem writtenPaths_cons_fetch (dk : String) (t : Nat) (l : List Ev) :
    writtenPaths (.fetch dk t :: l) = writtenPaths l := rfl

theorem writtenPaths_cons_write (p : String) (rows : Json) (l : List Ev) :
    writtenPaths (.write p rows :: l) = p :: writtenPaths l := rfl

theorem writtenPaths_cons_markOk (dk p : String) (l : List Ev) :
    writtenPaths (.markOk dk p :: l) = writtenPaths l := rfl

theorem writtenPaths_cons_markErr (dk msg : String) (l : List Ev) :
    writtenPaths (.markErr dk msg :: l) = writtenPaths l := rfl

theorem fetchEvents_cons_sleep (ms : Nat) (l : List Ev) :
    fetchEvents (.sleep ms :: l) = fetchEvents l := rfl

theorem fetchEvents_cons_fetch (dk : String) (t : Nat) (l : List Ev) :
    fetchEvents (.fetch dk t :: l) = (dk, t) :: fetchEvents l := rfl

theorem fetchEvents_cons_markErr (dk msg : String) (l : List Ev) :
    fetchEvents (.markErr dk msg :: l) = fetchEvents l := rfl

theorem map_pair_range_succ (dk : String) (t n : Nat) :
    (List.range (n + 1)).map (fun i => (dk, t + i)) =
      (dk, t) :: (List.range n).map (fun i => (dk, t + 1 + i)) := by
  rw [List.range_succ_eq_map, List.map_cons, List.map_map]
  congr 1
  apply List.map_congr_left
  intro a _
  simp only [Function.comp_apply, Prod.mk.injEq, true_and]
  omega

/-- A unit whose fetch raises on every attempt: the retry loop performs one
attempt per remaining budget step, records `error:` with the message of the
last attempt, and its fetch attempts are numbered consecutively from the
starting `tries`. -/
theorem runAttempts_all_fail (oracle : Nat → Attempt) (dk path : String)
    (errDelayMs : Nat) (msgs : Nat → String)
    (hfail : ∀ n, oracle n = .fetchFail (msgs n)) :
    ∀ (fuel tries : Nat) (s : StateMap),
      (runAttempts oracle dk path errDelayMs tries fuel s).1
          = setState s dk ("error:" ++ msgs (tries + fuel)) ∧
      fetchEvents (runAttempts oracle dk path errDelayMs tries fuel s).2
          = (List.range (fuel + 1)).map (fun i => (dk, tries + i)) := by
  intro fuel
  induction fuel with
  | zero =>
    intro tries s
    rw [runAttempts_fetchFail_zero oracle dk path errDelayMs tries s (hfail tries)]
    refine ⟨by rw [Nat.add_zero], ?_⟩
    show fetchEvents [.fetch dk tries, .markErr dk (msgs tries)] = _
    rw [fetchEvents_cons_fetch, fetchEvents_cons_markErr,
      map_pair_range_succ dk tries 0]
    simp [fetchEvents]
  | succ fuel' ih =>
    intro tries s
    rw [runAttempts_fetchFail_succ oracle dk path errDelayMs tries fuel' s (hfail tries)]
    obtain ⟨ih1, ih2⟩ := ih (tries + 1) s
    constructor
    · show (runAttempts oracle dk path errDelayMs (tries + 1) fuel' s).1 = _
      rw [ih1]
      have harith : tries + 1 + fuel' = tries + (fuel' + 1) := by omega
      rw [harith]
    · show fetchEvents (.fetch dk tries :: .sleep errDelayMs ::
        (runAttempts oracle dk path errDelayMs (tries + 1) fuel' s).2) = _
      rw [fetchEvents_cons_fetch, fetchEvents_cons_sleep, ih2,
        map_pair_range_succ dk tries (fuel' + 1)]

theorem runAttempts_state_frame (oracle : Nat → Attempt) (dk path : String)
    (errDelayMs : Nat) :
    ∀ (fuel tries : Nat) (s : StateMap) (dk' : String), dk' ≠ dk →
      lookupState (runAttempts oracle dk path errDelayMs tries fuel s).1 dk'
        = lookupState s dk' := by
  intro fuel
  induction fuel with
  | zero =>
    intro tries s dk' hne
    cases h : oracle tries with
    | success resp =>
      rw [runAttempts_success oracle dk path errDelayMs tries 0 s h]
      show lookupState (setState s dk "ok") dk' = _
      rw [lookup_setState, if_neg (fun hh => hne hh.symm)]
    | fetchFail msg =>
      rw [runAttempts_fetchFail_zero oracle dk path errDelayMs tries s h]
      show lookupState (setState s dk _) dk' = _
      rw [lookup_setState, if_neg (fun hh => hne hh.symm)]
    | writeFail resp msg =>
      rw [runAttempts_writeFail_zero oracle dk path errDelayMs tries s h]
      show lookupState (setState s dk _) dk' = _
      rw [lookup_setState, if_neg (fun hh => hne hh.symm)]
  | succ fuel' ih =>
    intro tries s dk' hne
    cases h : oracle tries with
    | success resp =>
      rw [runAttempts_success oracle dk path errDelayMs tries (fuel' + 1) s h]
      show lookupState (setState s dk "ok") dk' = _
      rw [lookup_setState, if_neg (fun hh => hne hh.symm)]
    | fetchFail msg =>
      rw [runAttempts_fetchFail_succ oracle dk path errDelayMs tries fuel' s h]
      exact ih (tries + 1) s dk' hne
    | writeFail resp msg =>
      rw [runAttempts_writeFail_succ oracle dk path errDelayMs tries fuel' s h]
      exact ih (tries + 1) s dk' hne

theorem runAttempts_writes (oracle : Nat → Attempt) (dk path : String)
    (errDelayMs : Nat) :
    ∀ (fuel tries : Nat) (s : StateMap) (p : String),
      p ∈ writtenPaths (runAttempts oracle dk path errDelayMs tries fuel s).2 →
      p = path := by
  intro fuel
  induction fuel with
  | zero =>
    intro tries s p hp
    cases h : oracle tries with
    | success resp =>
      rw [runAttempts_success oracle dk path errDelayMs tries 0 s h] at hp
      rw [show writtenPaths [.fetch dk tries, .write path (unwrap_history resp),
        .markOk dk path] = [path] from rfl] at hp
      simpa using hp
    | fetchFail msg =>
      rw [runAttempts_fetchFail_zero oracle dk path errDelayMs tries s h] at hp
      rw [show writtenPaths [.fetch dk tries, .markErr dk msg] = [] from rfl] at hp
      simp at hp
    | writeFail resp msg =>
      rw [runAttempts_writeFail_zero oracle dk path errDelayMs tries s h] at hp
      rw [show writtenPaths [.fetch dk tries, .markErr dk msg] = [] from rfl] at hp
      simp at hp
  | succ fuel' ih =>
    intro tries s p hp
    cases h : oracle tries with
    | success resp =>
      rw [runAttempts_success oracle dk path errDelayMs tries (fuel' + 1) s h] at hp
      rw [show writtenPaths [.fetch dk tries, .write path (unwrap_history resp),
        .markOk dk path] = [path] from rfl] at hp
      simpa using hp
    | fetchFail msg =>
      rw [runAttempts_fetchFail_succ oracle dk path errDelayMs tries fuel' s h] at hp
      rw [show writtenPaths (.fetch dk tries :: .sleep errDelayMs ::
        (runAttempts oracle dk path errDelayMs (tries + 1) fuel' s).2)
        = writtenPaths (runAttempts oracle dk path errDelayMs (tries + 1) fuel' s).2
        from rfl] at hp
      exact ih (tries + 1) s p hp
    | writeFail resp msg =>
      rw [runAttempts_writeFail_succ oracle dk path errDelayMs tries fuel' s h] at hp
      rw [show writtenPaths (.fetch dk tries :: .sleep errDelayMs ::
        (runAttempts oracle dk path errDelayMs (tries + 1) fuel' s).2)
        = writtenPaths (runAttempts oracle dk path errDelayMs (tries + 1) fuel' s).2
        from rfl] at hp
      exact ih (tries + 1) s p hp

theorem processUnit_state_frame (oracle : Nat → Attempt)
    (dayStr dayDir key : String) (epDelayMs gDelayMs maxRetries : Nat)
    (s : StateMap) (fs : List String) (dk' : String)
    (hne : dk' ≠ doneKeyOf dayStr key) :
    lookupState (processUnit oracle dayStr dayDir key epDelayMs gDelayMs
      maxRetries s fs).state dk' = lookupState s dk' := by
  cases hc : (fs.contains (outPathOf dayDir key) ||
      (lookupState s (doneKeyOf dayStr key) == some "ok")) with
  | true =>
    rw [processUnit_skip_of_cond oracle dayStr dayDir key epDelayMs gDelayMs
      maxRetries s fs hc]
  | false =>
    rw [processUnit_run oracle dayStr dayDir key epDelayMs gDelayMs
      maxRetries s fs hc]
    exact runAttempts_state_frame oracle (doneKeyOf dayStr key)
      (outPathOf dayDir key) (max epDelayMs 2000) (maxRetries - 1) 1 s dk' hne

theorem processUnit_fs_mem (oracle : Nat → Attempt)
    (dayStr dayDir key : String) (epDelayMs gDelayMs maxRetries : Nat)
    (s : StateMap) (fs : List String) (q : String)
    (hq : q ∈ (processUnit oracle dayStr dayDir key epDelayMs gDelayMs
      maxRetries s fs).fs) :
    q ∈ fs ∨ q = outPathOf dayDir key := by
  cases hc : (fs.contains (outPathOf dayDir key) ||
      (lookupState s (doneKeyOf dayStr key) == some "ok")) with
  | true =>
    rw [processUnit_skip_of_cond oracle dayStr dayDir key epDelayMs gDelayMs
      maxRetries s fs hc] at hq
    exact Or.inl hq
  | false =>
    rw [processUnit_run oracle dayStr dayDir key epDelayMs gDelayMs
      maxRetries s fs hc] at hq
    rcases List.mem_append.mp hq with h | h
    · exact Or.inl h
    · exact Or.inr (runAttempts_writes oracle (doneKeyOf dayStr key)
        (outPathOf dayDir key) (max epDelayMs 2000) (maxRetries - 1) 1 s q h)

theorem exportUnits_cons_state (oracle : String → String → Nat → Attempt)
    (symbol interval outRoot : String) (epDelay : String → Nat)
    (gDelayMs maxRetries : Nat) (d k : String)
    (rest : List (String × String)) (s : StateMap) (fs : List String) :
    (exportUnits oracle symbol interval outRoot epDelay gDelayMs maxRetries
        ((d, k) :: rest) s fs).state =
      (exportUnits oracle symbol interval outRoot epDelay gDelayMs maxRetries rest
        (processUnit (oracle d k) d (dayDirOf outRoot symbol interval d) k
          (epDelay k) gDelayMs maxRetries s fs).state
        (processUnit (oracle d k) d (dayDirOf outRoot symbol interval d) k
          (epDelay k) gDelayMs maxRetries s fs).fs).state := rfl

theorem exportUnits_state_frame (oracle : String → String → Nat → Attempt)
    (symbol interval outRoot : String) (epDelay : String → Nat)
    (gDelayMs maxRetries : Nat) :
    ∀ (us : List (String × String)) (s : StateMap) (fs : List String)
      (dk' : String), (∀ u ∈ us, dk' ≠ doneKeyOf u.1 u.2) →
      lookupState (exportUnits oracle symbol interval outRoot epDelay gDelayMs
        maxRetries us s fs).state dk' = lookupState s dk' := by
  intro us
  induction us with
  | nil => intro s fs dk' _; rfl
  | cons u rest ih =>
    obtain ⟨d, k⟩ := u
    intro s fs dk' hall
    rw [exportUnits_cons_state,
      ih _ _ dk' (fun x hx => hall x (List.mem_cons_of_mem _ hx))]
    exact processUnit_state_frame (oracle d k) d
      (dayDirOf outRoot symbol interval d) k (epDelay k) gDelayMs maxRetries
      s fs dk' (hall (d, k) (List.mem_cons_self _ _))

theorem exportUnits_append (oracle : String → String → Nat → Attempt)
    (symbol interval outRoot : String) (epDelay : String → Nat)
    (gDelayMs maxRetries : Nat) :
    ∀ (us vs : List (String × String)) (s : StateMap) (fs : List String),
      exportUnits oracle symbol interval outRoot epDelay gDelayMs maxRetries
          (us ++ vs) s fs =
        ⟨(exportUnits oracle symbol interval outRoot epDelay gDelayMs maxRetries vs
            (exportUnits oracle symbol interval outRoot epDelay gDelayMs maxRetries
              us s fs).state
            (exportUnits oracle symbol interval outRoot epDelay gDelayMs maxRetries
              us s fs).fs).state,
          (exportUnits oracle symbol interval outRoot epDelay gDelayMs maxRetries vs
            (exportUnits oracle symbol interval outRoot epDelay gDelayMs maxRetries
              us s fs).state
            (exportUnits oracle symbol interval outRoot epDelay gDelayMs maxRetries
              us s fs).fs).fs,
          (exportUnits oracle symbol interval outRoot epDelay gDelayMs maxRetries
            us s fs).events ++
            (exportUnits oracle symbol interval outRoot epDelay gDelayMs maxRetries vs
              (exportUnits oracle symbol interval outRoot epDelay gDelayMs maxRetries
                us s fs).state
              (exportUnits oracle symbol interval outRoot epDelay gDelayMs maxRetries
                us s fs).fs).events⟩ := by
  intro us
  induction us with
  | nil => intro vs s fs; rfl
  | cons u rest ih =>
    obtain ⟨d, k⟩ := u
    intro vs s fs
    rw [List.cons_append]
    simp only [exportUnits_cons, ih]
    simp [List.append_assoc]

theorem export_day_eq_exportUnits (oracle : String → String → Nat → Attempt)
    (symbol interval outRoot d : String) (epDelay : String → Nat)
    (gDelayMs maxRetries : Nat) :
    ∀ (keys : List String) (s : StateMap) (fs : List String),
      exportKeys (oracle d) d (dayDirOf outRoot symbol interval d) epDelay
          gDelayMs maxRetries keys s fs =
        exportUnits oracle symbol interval outRoot epDelay gDelayMs maxRetries
          (keys.map fun k => (d, k)) s fs := by
  intro keys
  induction keys with
  | nil => intro s fs; rfl
  | cons k rest ih =>
    intro s fs
    rw [List.map_cons, exportKeys_cons, exportUnits_cons, ih]

theorem exportDays_eq_exportUnits (oracle : String → String → Nat → Attempt)
    (symbol interval outRoot : String) (epDelay : String → Nat)
    (gDelayMs maxRetries : Nat) :
    ∀ (days : List String) (s : StateMap) (fs : List String),
      exportDays oracle symbol interval outRoot epDelay gDelayMs maxRetries
          days s fs =
        exportUnits oracle symbol interval outRoot epDelay gDelayMs maxRetries
          (unitsOf days) s fs := by
  intro days
  induction days with
  | nil => intro s fs; rfl
  | cons d rest ih =>
    intro s fs
    rw [show unitsOf (d :: rest) = (ENDPOINT_KEYS.map fun k => (d, k)) ++
      unitsOf rest from by simp [unitsOf]]
    rw [exportUnits_append, exportDays_cons, ih,
      show export_day (oracle d) symbol interval d outRoot epDelay gDelayMs
          maxRetries s fs =
        exportKeys (oracle d) d (dayDirOf outRoot symbol interval d) epDelay
          gDelayMs maxRetries ENDPOINT_KEYS s fs from rfl,
      export_day_eq_exportUnits oracle symbol interval outRoot d epDelay
        gDelayMs maxRetries ENDPOINT_KEYS s fs]

theorem fetchEvents_append (l1 l2 : List Ev) :
    fetchEvents (l1 ++ l2) = fetchEvents l1 ++ fetchEvents l2 := by
  simp [fetchEvents]

/-- Sequential containment: a unit of the run whose key is fresh, whose
artifact is absent and whose own fetch succeeds on its first attempt is
marked `"ok"` by the run, no matter what happens to every other unit
(including retry exhaustion), provided the units of the run do not alias
each other's completion keys or artifact paths. -/
theorem exportUnits_success_unit (oracle : String → String → Nat → Attempt)
    (symbol interval outRoot : String) (epDelay : String → Nat)
    (gDelayMs maxRetries : Nat) :
    ∀ (us : List (String × String)) (s : StateMap) (fs : List String)
      (d k : String) (resp : Json),
      (d, k) ∈ us →
      us.Pairwise (fun a b => doneKeyOf a.1 a.2 ≠ doneKeyOf b.1 b.2 ∧
        outPathOf (dayDirOf outRoot symbol interval a.1) a.2 ≠
          outPathOf (dayDirOf outRoot symbol interval b.1) b.2) →
      oracle d k 1 = .success resp →
      lookupState s (doneKeyOf d k) ≠ some "ok" →
      fs.contains (outPathOf (dayDirOf outRoot symbol interval d) k) = false →
      lookupState (exportUnits oracle symbol interval outRoot epDelay gDelayMs
        maxRetries us s fs).state (doneKeyOf d k) = some "ok" := by
  intro us
  induction us with
  | nil =>
    intro s fs d k resp hmem
    exact absurd hmem (List.not_mem_nil _)
  | cons u rest ih =>
    intro s fs d k resp hmem hpw hsucc hnok hnofs
    rcases List.pairwise_cons.mp hpw with ⟨hhead, htail⟩
    rcases List.mem_cons.mp hmem with heq | hmem'
    · subst heq
      have hcond : ((fs.contains (outPathOf (dayDirOf outRoot symbol interval d) k)) ||
          (lookupState s (doneKeyOf d k) == some "ok")) = false := by
        rw [hnofs, beq_eq_false_iff_ne.mpr hnok]
        rfl
      rw [exportUnits_cons_state,
        exportUnits_state_frame oracle symbol interval outRoot epDelay gDelayMs
          maxRetries rest _ _ (doneKeyOf d k)
          (fun x hx => (hhead x hx).1),
        processUnit_run (oracle d k) d (dayDirOf outRoot symbol interval d) k
          (epDelay k) gDelayMs maxRetries s fs hcond]
      rw [runAttempts_success (oracle d k) (doneKeyOf d k)
        (outPathOf (dayDirOf outRoot symbol interval d) k)
        (max (epDelay k) 2000) 1 (maxRetries - 1) s hsucc]
      show lookupState (setState s (doneKeyOf d k) "ok") (doneKeyOf d k)
        = some "ok"
      rw [lookup_setState, if_pos rfl]
    · obtain ⟨d0, k0⟩ := u
      have hrel := hhead (d, k) hmem'
      rw [exportUnits_cons_state]
      apply ih _ _ d k resp hmem' htail hsucc
      · rw [processUnit_state_frame (oracle d0 k0) d0
          (dayDirOf outRoot symbol interval d0) k0 (epDelay k0) gDelayMs
          maxRetries s fs (doneKeyOf d k) (fun hh => hrel.1 hh.symm)]
        exact hnok
      · have hnotmem : outPathOf (dayDirOf outRoot symbol interval d) k ∉
            (processUnit (oracle d0 k0) d0 (dayDirOf outRoot symbol interval d0)
              k0 (epDelay k0) gDelayMs maxRetries s fs).fs := by
          intro hin
          rcases processUnit_fs_mem (oracle d0 k0) d0
            (dayDirOf outRoot symbol interval d0) k0 (epDelay k0) gDelayMs
            maxRetries s fs _ hin with hin' | hin'
          · have hct : fs.contains (outPathOf (dayDirOf outRoot symbol
                interval d) k) = true := by simpa using hin'
            rw [hnofs] at hct
            exact Bool.false_ne_true hct
          · exact hrel.2 hin'.symm
        simpa using hnotmem

/-- C5: after `MAX_RETRIES` failing attempts (default 8) the unit's
completion entry is set to `error:<message of the last attempt>` (first
conjunct: the unit performs exactly `maxRetries` fetch attempts, numbered
`1..maxRetries`, and ends marked `error:`), and the run continues:
any other unit of the range that is not yet done and whose own fetch
succeeds still ends `"ok"`, no matter which other units exhaust their
retries (second conjunct) — one bad unit never terminates the run. -/
theorem failed_unit_does_not_halt_run :
    (∀ (oracle : Nat → Attempt) (dayStr dayDir key : String)
      (epDelayMs gDelayMs maxRetries : Nat) (s : StateMap) (fs : List String)
      (msgs : Nat → String),
      1 ≤ maxRetries →
      (∀ n, oracle n = .fetchFail (msgs n)) →
      fs.contains (outPathOf dayDir key) = false →
      lookupState s (doneKeyOf dayStr key) ≠ some "ok" →
      lookupState (processUnit oracle dayStr dayDir key epDelayMs gDelayMs
        maxRetries s fs).state (doneKeyOf dayStr key)
          = some ("error:" ++ msgs maxRetries) ∧
      fetchEvents (processUnit oracle dayStr dayDir key epDelayMs gDelayMs
        maxRetries s fs).events
          = (List.range maxRetries).map (fun i => (doneKeyOf dayStr key, 1 + i))) ∧
    (∀ (oracle : String → String → Nat → Attempt)
      (symbol interval outRoot : String) (epDelay : String → Nat)
      (gDelayMs maxRetries : Nat) (days : List String) (s : StateMap)
      (fs : List String) (d k : String) (resp : Json),
      (d, k) ∈ unitsOf days →
      (unitsOf days).Pairwise (fun a b => doneKeyOf a.1 a.2 ≠ doneKeyOf b.1 b.2 ∧
        outPathOf (dayDirOf outRoot symbol interval a.1) a.2 ≠
          outPathOf (dayDirOf outRoot symbol interval b.1) b.2) →
      oracle d k 1 = .success resp →
      lookupState s (doneKeyOf d k) ≠ some "ok" →
      fs.contains (outPathOf (dayDirOf outRoot symbol interval d) k) = false →
      lookupState (exportDays oracle symbol interval outRoot epDelay gDelayMs
        maxRetries days s fs).state (doneKeyOf d k) = some "ok") := by
  constructor
  · intro oracle dayStr dayDir key epDelayMs gDelayMs maxRetries s fs msgs
      hmax hfail hfs hnok
    have hcond : ((fs.contains (outPathOf dayDir key)) ||
        (lookupState s (doneKeyOf dayStr key) == some "ok")) = false := by
      rw [hfs, beq_eq_false_iff_ne.mpr hnok]
      rfl
    rw [processUnit_run oracle dayStr dayDir key epDelayMs gDelayMs maxRetries
      s fs hcond]
    obtain ⟨h1, h2⟩ := runAttempts_all_fail oracle (doneKeyOf dayStr key)
      (outPathOf dayDir key) (max epDelayMs 2000) msgs hfail (maxRetries - 1) 1 s
    constructor
    · show lookupState (runAttempts oracle (doneKeyOf dayStr key)
        (outPathOf dayDir key) (max epDelayMs 2000) 1 (maxRetries - 1) s).1
        (doneKeyOf dayStr key) = _
      rw [h1, lookup_setState, if_pos rfl]
      have harith : 1 + (maxRetries - 1) = maxRetries := by omega
      rw [harith]
    · show fetchEvents (.sleep epDelayMs :: (runAttempts oracle
        (doneKeyOf dayStr key) (outPathOf dayDir key) (max epDelayMs 2000) 1
        (maxRetries - 1) s).2 ++ [.sleep gDelayMs, .saveState]) = _
      rw [fetchEvents_append, fetchEvents_cons_sleep, h2,
        show fetchEvents [Ev.sleep gDelayMs, Ev.saveState] = [] from rfl,
        List.append_nil]
      have harith : maxRetries - 1 + 1 = maxRetries := by omega
      rw [harith]
  · intro oracle symbol interval outRoot epDelay gDelayMs maxRetries days s fs
      d k resp hmem hpw hsucc hnok hnofs
    rw [exportDays_eq_exportUnits]
    exact exportUnits_success_unit oracle symbol interval outRoot epDelay
      gDelayMs maxRetries (unitsOf days) s fs d k resp hmem hpw hsucc hnok hnofs

/-- Witness for C5: with the default budget of 8 retries, a permanently
failing `(2024-01-02, fr)` unit ends `error:boom` after exactly the attempts
`1..8`, and the `(2024-01-03, ohlcv)` unit of the same two-day run still ends
`"ok"`. -/
theorem failed_unit_does_not_halt_run_witness :
    (lookupState (processUnit (fun _ => .fetchFail "boom") "2024-01-02"
        (dayDirOf "/data/lake" "BTCUSDT_PERP.A" "1min" "2024-01-02") "fr" 3000
        400 MAX_RETRIES [] []).state (doneKeyOf "2024-01-02" "fr")
      = some ("error:" ++ "boom") ∧
     fetchEvents (processUnit (fun _ => .fetchFail "boom") "2024-01-02"
        (dayDirOf "/data/lake" "BTCUSDT_PERP.A" "1min" "2024-01-02") "fr" 3000
        400 MAX_RETRIES [] []).events
      = (List.range MAX_RETRIES).map (fun i => (doneKeyOf "2024-01-02" "fr", 1 + i))) ∧
    lookupState (exportDays
        (fun d' k' _ => if d' = "2024-01-02" ∧ k' = "fr" then .fetchFail "boom"
          else .success (.arr []))
        "BTCUSDT_PERP.A" "1min" "/data/lake" (fun k => EP_DELAY_MS k) 400
        MAX_RETRIES ["2024-01-02", "2024-01-03"] [] []).state
      (doneKeyOf "2024-01-03" "ohlcv") = some "ok" :=
  ⟨failed_unit_does_not_halt_run.1 (fun _ => .fetchFail "boom") "2024-01-02"
      (dayDirOf "/data/lake" "BTCUSDT_PERP.A" "1min" "2024-01-02") "fr" 3000 400
      MAX_RETRIES [] [] (fun _ => "boom") (by decide) (fun _ => rfl) rfl
      (fun h => Option.noConfusion h),
   failed_unit_does_not_halt_run.2
      (fun d' k' _ => if d' = "2024-01-02" ∧ k' = "fr" then .fetchFail "boom"
        else .success (.arr []))
      "BTCUSDT_PERP.A" "1min" "/data/lake" (fun k => EP_DELAY_MS k) 400
      MAX_RETRIES ["2024-01-02", "2024-01-03"] [] [] "2024-01-03" "ohlcv"
      (.arr []) (by decide) (by decide) rfl (fun h => Option.noConfusion h) rfl⟩
